import Mathlib

/-!
# Verification of the quote-api service

A shallow embedding of the quote-api repository (`src/database.js`,
`src/server.js`): a small Express service over a single SQLite table
`quotes (id, quote, author, language)`.  The table is modelled as a list
of rows in insertion order; each prepared statement of `database.js`
becomes a Lean function over that list, and each Express route handler of
`server.js` becomes a function from the table state and the request data
to a response paired with the next state.  `ORDER BY RANDOM() LIMIT 1` is
modelled by a natural-number randomness parameter choosing uniformly among
the matching rows, and a thrown storage-engine error (better-sqlite3 can
throw on any write) is modelled by an optional fault string injected at
the write operations.  A bulk-import array element is an object, a
non-null primitive, or JSON `null`; reading a property off `null` throws
a `TypeError`, which Express forwards to the global error handler, so the
validator is embedded as an `Except` computation.
-/

namespace QuoteApi

/-- One row of the `quotes` table, as selected by every query
(`SELECT quote, author, language`); the autoincrement `id` is never
returned by any statement and no claim mentions it, so it is omitted. -/
structure Row where
  quote : String
  author : String
  language : String
deriving DecidableEq, Repr

/-- The `quotes` table: rows in insertion order. -/
abbrev Table := List Row

/-- The schema-level constraint `CHECK (language IN ('fr', 'en'))` from
`init` in `database.js`. -/
def langCheck (s : String) : Bool :=
  s == "fr" || s == "en"

/-- SQL `ORDER BY language, author` comparison: ascending lexicographic on
the pair, language first, author breaking ties. -/
def rowLe (a b : Row) : Prop :=
  a.language < b.language ∨ (a.language = b.language ∧ a.author ≤ b.author)

/-- SQL `ORDER BY author` comparison. -/
def authorLe (a b : Row) : Prop :=
  a.author ≤ b.author

instance : DecidableRel rowLe := by
  intro a b
  unfold rowLe
  infer_instance

instance : DecidableRel authorLe := by
  intro a b
  unfold authorLe
  infer_instance

instance : IsTotal Row rowLe where
  total a b := by
    unfold rowLe
    rcases lt_trichotomy a.language b.language with h | h | h
    · exact Or.inl (Or.inl h)
    · rcases le_total a.author b.author with h2 | h2
      · exact Or.inl (Or.inr ⟨h, h2⟩)
      · exact Or.inr (Or.inr ⟨h.symm, h2⟩)
    · exact Or.inr (Or.inl h)

instance : IsTrans Row rowLe where
  trans a b c hab hbc := by
    unfold rowLe at *
    rcases hab with h1 | ⟨e1, h1⟩
    · rcases hbc with h2 | ⟨e2, h2⟩
      · exact Or.inl (h1.trans h2)
      · exact Or.inl (e2 ▸ h1)
    · rcases hbc with h2 | ⟨e2, h2⟩
      · exact Or.inl (e1 ▸ h2)
      · exact Or.inr ⟨e1.trans e2, h1.trans h2⟩

instance : IsTotal Row authorLe where
  total a b := le_total a.author b.author

instance : IsTrans Row authorLe where
  trans _ _ _ hab hbc := le_trans hab hbc

/-! ## Storage component (`database.js`) -/

/-- `getAllQuotes`: the prepared statement
`SELECT quote, author, language FROM quotes ORDER BY language, author`. -/
def getAllQuotes (rows : Table) : Table :=
  List.insertionSort rowLe rows

/-- `getQuotesByLanguage`: the prepared statement
`SELECT quote, author, language FROM quotes WHERE language = ? ORDER BY author`. -/
def getQuotesByLanguage (rows : Table) (language : String) : Table :=
  List.insertionSort authorLe (rows.filter (fun q => q.language == language))

/-- The rows matching a language, in table order (the `WHERE language = ?`
clause before any ordering). -/
def matchingRows (rows : Table) (language : String) : Table :=
  rows.filter (fun q => q.language == language)

/-- `getRandomQuote`: the prepared statement
`SELECT quote, author, language FROM quotes WHERE language = ? ORDER BY RANDOM() LIMIT 1`.
The engine's `RANDOM()` ordering makes each matching row equally likely to
come first; it is modelled by a randomness parameter `r`, reduced modulo
the number of matching rows, selecting the row at that index.  `none` is
the statement's empty result (`.get()` returning `undefined`). -/
def getRandomQuote (rows : Table) (language : String) (r : Nat) : Option Row :=
  let l := matchingRows rows language
  l[r % l.length]?

/-- `addQuote`: runs the prepared `INSERT INTO quotes (quote, author,
language) VALUES (?, ?, ?)`.  better-sqlite3 `run` throws on failure:
the schema `CHECK` constraint on `language` rejects the write, and
`fault` injects an engine-level error (e.g. an I/O failure), either
surfacing as `Except.error` with the message. -/
def addQuote (rows : Table) (quote author language : String)
    (fault : Option String) : Except String Table :=
  match fault with
  | some e => .error e
  | none =>
    if langCheck language then
      .ok (rows ++ [⟨quote, author, language⟩])
    else
      .error "CHECK constraint failed: quotes"

/-- The loop body of the transaction in `addManyQuotes`: run the prepared
insert for each record in order, stopping at the first failure. -/
def insertLoop (rows : Table) : List Row → Except String Table
  | [] => .ok rows
  | q :: rest =>
    if langCheck q.language then
      insertLoop (rows ++ [q]) rest
    else
      .error "CHECK constraint failed: quotes"

/-- The result object of `addManyQuotes`: `{success, count}` on success,
`{success, error}` on failure. -/
structure BulkResult where
  success : Bool
  count : Option Nat
  error : Option String
deriving DecidableEq, Repr

/-- `addManyQuotes`: wraps the per-record inserts in a better-sqlite3
transaction; on any thrown error the transaction rolls back (the table is
unchanged) and the catch returns `{success: false, error: error.message}`;
otherwise it commits and returns `{success: true, count: quotes.length}`. -/
def addManyQuotes (rows : Table) (quotes : List Row) : BulkResult × Table :=
  match insertLoop rows quotes with
  | .ok rows2 => (⟨true, some quotes.length, none⟩, rows2)
  | .error e => (⟨false, none, some e⟩, rows)

/-! ## Request-handling component (`server.js`) -/

/-- A JSON response body, one constructor per response shape that
`server.js` ever sends. -/
inductive Body where
  /-- `{error: msg}` (validation failures and the single-insert catch). -/
  | err (msg : String)
  /-- `{error: msg, details?: d}` from the global error handler. -/
  | errDetails (msg : String) (details : Option String)
  /-- `{message: msg}` (404 bodies). -/
  | notFound (msg : String)
  /-- `{total, quotes}` from GET `/quotes`. -/
  | listAll (total : Nat) (quotes : List Row)
  /-- `{language, total, quotes}` from GET `/:language/quotes`. -/
  | listLang (language : String) (total : Nat) (quotes : List Row)
  /-- a single quote object from GET `/:language/quote`. -/
  | single (q : Row)
  /-- `{success, message, error?}` from POST `/quotes`. -/
  | bulk (success : Bool) (message : String) (error : Option String)
  /-- `{message, quote}` from POST `/:language/quote` (201). -/
  | created (message : String) (q : Row)
deriving DecidableEq, Repr

/-- An HTTP response: status code and JSON body. -/
abbrev Response := Nat × Body

/-- One element of a bulk-import JSON array, with the fields the schema
declares; an absent field is `none` (JS `undefined`). -/
structure QuoteElem where
  quote : Option String
  author : Option String
  language : Option String
deriving DecidableEq, Repr

/-- JS truthiness of a string-valued field: `undefined` and the empty
string are falsy. -/
def truthy : Option String → Bool
  | none => false
  | some s => !(s == "")

/-- `validateLanguage` middleware: `['fr', 'en'].includes(req.params.language)`. -/
def validateLanguage (language : String) : Bool :=
  language == "fr" || language == "en"

/-- The 400 body sent by `validateLanguage`. -/
def unsupportedLanguageBody : Body :=
  .err "Langue non supportée / Unsupported language"

/-- One element of a JSON bulk-import array, by how JS property access
treats it: an object (fields read off it), a non-null non-object value
(an array/string/number/boolean, reading `.quote` yields `undefined`), or
JSON `null`, on which reading `.quote` throws a `TypeError`. -/
inductive BulkElem where
  | obj (q : QuoteElem)
  | prim
  | null
deriving DecidableEq, Repr

/-- The per-element callback of `validateQuotes` on an object element:
`q.quote && q.author && q.language && ['fr','en'].includes(q.language)`. -/
def elemCheck (q : QuoteElem) : Bool :=
  truthy q.quote && truthy q.author && truthy q.language &&
  (q.language == some "fr" || q.language == some "en")

/-- `quotes.every(...)` scanning left to right: short-circuits `false` at
the first failing element, and throws a `TypeError` the moment the
callback reads a field off a `null` element. -/
def validateQuotesRun : List BulkElem → Except String Bool
  | [] => .ok true
  | .null :: _ =>
    .error "Cannot read properties of null (reading 'quote')"
  | .prim :: _ => .ok false
  | .obj q :: rest =>
    if elemCheck q then validateQuotesRun rest else .ok false

/-- `validateQuotes`: `Array.isArray(quotes)` (a non-array body is `none`)
and then `quotes.every(...)`; an `Except.error` is the `TypeError` thrown
out of the callback. -/
def validateQuotes : Option (List BulkElem) → Except String Bool
  | none => .ok false
  | some qs => validateQuotesRun qs

/-- Convert a validated bulk-import element to the record handed to the
prepared insert (`@quote`, `@author`, `@language` bindings). -/
def elemToRow (q : QuoteElem) : Row :=
  ⟨q.quote.getD "", q.author.getD "", q.language.getD ""⟩

/-- The record bound by the transaction for an array element.  After
validation only object elements remain; for the unreachable non-object
elements the bindings would throw inside the transaction, modelled as a
row failing the schema check (so the transaction could never commit it). -/
def bulkElemToRow : BulkElem → Row
  | .obj q => elemToRow q
  | .prim => ⟨"", "", ""⟩
  | .null => ⟨"", "", ""⟩

/-- An element the claim set describes as invalid: an object lacking a
non-empty `quote` or `author` or a language in `{fr, en}`, or any
non-object element (which has no fields at all). -/
def lacksField : BulkElem → Prop
  | .obj q => truthy q.quote = false ∨ truthy q.author = false ∨
      (q.language ≠ some "fr" ∧ q.language ≠ some "en")
  | .prim => True
  | .null => True

/-- The global Express error handler: 500 with a generic message, and a
`details` field only when `NODE_ENV === 'development'`. -/
def errorHandler (mode : String) (errMessage : String) : Response :=
  (500, .errDetails "Erreur interne du serveur / Internal server error"
    (if mode == "development" then some errMessage else none))

/-- GET `/quotes`: lists every quote, 404 when the result is empty,
otherwise 200 with `{total, quotes}`. -/
def getQuotesHandler (rows : Table) : Response × Table :=
  let quotes := getAllQuotes rows
  if quotes.length = 0 then
    ((404, .notFound "Aucune citation disponible / No quotes available"), rows)
  else
    ((200, .listAll quotes.length quotes), rows)

/-- POST `/quotes`: bulk import.  Validates the whole payload first; a
`TypeError` thrown by the validator propagates synchronously out of the
route and Express hands it to the global error handler; a `false` result
responds 400 without any storage call; otherwise the handler runs
`addManyQuotes` and maps its result to 200 or 500. -/
def postQuotesHandler (mode : String) (rows : Table)
    (body : Option (List BulkElem)) : Response × Table :=
  match validateQuotes body with
  | .error e => (errorHandler mode e, rows)
  | .ok false => ((400, .err "Format invalide / Invalid format"), rows)
  | .ok true =>
    let quotes := (body.getD []).map bulkElemToRow
    let result := addManyQuotes rows quotes
    ((if result.1.success then 200 else 500,
      .bulk result.1.success
        (if result.1.success then
          toString (result.1.count.getD 0) ++ " citations importées / quotes imported"
        else
          "Échec de l'import / Import failed")
        result.1.error),
     result.2)

/-- GET `/:language/quotes`: `validateLanguage` then the language-filtered
listing, 404 when empty, otherwise 200 with `{language, total, quotes}`. -/
def getLangQuotesHandler (rows : Table) (language : String) :
    Response × Table :=
  if !validateLanguage language then
    ((400, unsupportedLanguageBody), rows)
  else
    let quotes := getQuotesByLanguage rows language
    if quotes.length = 0 then
      ((404, .notFound ("Aucune citation disponible en " ++ language ++
        " / No quotes available in " ++ language)), rows)
    else
      ((200, .listLang language quotes.length quotes), rows)

/-- GET `/:language/quote`: `validateLanguage` then one random quote, 404
when none matches. -/
def getRandomHandler (rows : Table) (language : String) (r : Nat) :
    Response × Table :=
  if !validateLanguage language then
    ((400, unsupportedLanguageBody), rows)
  else
    match getRandomQuote rows language r with
    | none =>
      ((404, .notFound ("Aucune citation disponible en " ++ language ++
        " / No quotes available in " ++ language)), rows)
    | some q => ((200, .single q), rows)

/-- POST `/:language/quote`: `validateLanguage`, then the
`if (!quote || !author)` field check, then `db.addQuote` inside
`try/catch`; the catch responds `500 {error: error.message}` (with no
mode check at this site). -/
def postQuoteHandler (rows : Table) (language : String)
    (quote author : Option String) (fault : Option String) :
    Response × Table :=
  if !validateLanguage language then
    ((400, unsupportedLanguageBody), rows)
  else if !(truthy quote && truthy author) then
    ((400, .err "Champs requis manquants / Missing required fields"), rows)
  else
    match addQuote rows (quote.getD "") (author.getD "") language fault with
    | .ok rows2 =>
      ((201, .created "Citation ajoutée avec succès / Quote added successfully"
        ⟨quote.getD "", author.getD "", language⟩), rows2)
    | .error e => ((500, .err e), rows)

/-- One inbound API request (the state-changing and state-reading routes),
with its request data; faults model engine-level write failures. -/
inductive Request where
  | getQuotes
  | postQuotes (body : Option (List BulkElem))
  | getLangQuotes (language : String)
  | getRandom (language : String) (r : Nat)
  | postQuote (language : String) (quote author : Option String)
      (fault : Option String)

/-- Dispatch one request against the current table; `mode` is the
process-wide `NODE_ENV`, consulted by the global error handler. -/
def step (mode : String) (rows : Table) : Request → Response × Table
  | .getQuotes => getQuotesHandler rows
  | .postQuotes body => postQuotesHandler mode rows body
  | .getLangQuotes language => getLangQuotesHandler rows language
  | .getRandom language r => getRandomHandler rows language r
  | .postQuote language quote author fault =>
      postQuoteHandler rows language quote author fault

/-- Run a sequence of requests from a starting table state. -/
def exec (mode : String) (reqs : List Request) (rows : Table) : Table :=
  match reqs with
  | [] => rows
  | req :: rest => exec mode rest (step mode rows req).2

/-- The row invariant of the claim set: a recognized language code and
non-empty quote and author. -/
def rowOk (q : Row) : Prop :=
  (q.language = "fr" ∨ q.language = "en") ∧ q.quote ≠ "" ∧ q.author ≠ ""

/-! ## Basic lemmas -/

lemma langCheck_iff {s : String} :
    langCheck s = true ↔ (s = "fr" ∨ s = "en") := by
  simp [langCheck]

lemma validateLanguage_iff {language : String} :
    validateLanguage language = true ↔ (language = "fr" ∨ language = "en") := by
  simp [validateLanguage]

lemma truthy_getD_ne {o : Option String} (h : truthy o = true) :
    o.getD "" ≠ "" := by
  cases o with
  | none => simp [truthy] at h
  | some s =>
    simp [truthy] at h
    simpa using h

lemma insertLoop_ok (quotes : List Row) :
    ∀ rows, (∀ q ∈ quotes, langCheck q.language = true) →
      insertLoop rows quotes = .ok (rows ++ quotes) := by
  induction quotes with
  | nil => intro rows _; simp [insertLoop]
  | cons q rest ih =>
    intro rows h
    have hq := h q (List.mem_cons_self _ _)
    have hrest := ih (rows ++ [q]) (fun x hx => h x (List.mem_cons_of_mem _ hx))
    simp [insertLoop, hq, hrest]

lemma insertLoop_err (quotes : List Row) :
    ∀ rows, (∃ q ∈ quotes, langCheck q.language = false) →
      insertLoop rows quotes = .error "CHECK constraint failed: quotes" := by
  induction quotes with
  | nil => intro rows h; simp at h
  | cons q rest ih =>
    intro rows h
    by_cases hq : langCheck q.language = true
    · obtain ⟨x, hx, hbad⟩ := h
      rcases List.mem_cons.mp hx with rfl | hx2
      · rw [hq] at hbad; cases hbad
      · simp only [insertLoop, hq, if_true]
        exact ih (rows ++ [q]) ⟨x, hx2, hbad⟩
    · simp only [Bool.not_eq_true] at hq
      simp [insertLoop, hq]

/-! ## Claim theorems -/

/-- C1: the bulk insert `addManyQuotes` is atomic: it succeeds exactly
when every record passes the language constraint; on success all records
are appended and the reported count is the batch length; on any failure
the table is rolled back unchanged and the result carries the underlying
error message. -/
theorem addManyQuotes_atomic (rows : Table) (quotes : List Row) :
    ((addManyQuotes rows quotes).1.success = true ↔
      ∀ q ∈ quotes, q.language = "fr" ∨ q.language = "en")
    ∧ ((addManyQuotes rows quotes).1.success = true →
        (addManyQuotes rows quotes).2 = rows ++ quotes ∧
        (addManyQuotes rows quotes).1.count = some quotes.length ∧
        (addManyQuotes rows quotes).1.error = none)
    ∧ ((addManyQuotes rows quotes).1.success = false →
        (addManyQuotes rows quotes).2 = rows ∧
        ∃ e, (addManyQuotes rows quotes).1.error = some e) := by
  by_cases hall : ∀ q ∈ quotes, langCheck q.language = true
  · have hloop := insertLoop_ok quotes rows hall
    refine ⟨?_, ?_, ?_⟩
    · simp only [addManyQuotes, hloop]
      constructor
      · intro _ q hq
        exact langCheck_iff.mp (hall q hq)
      · intro _; trivial
    · intro _
      simp [addManyQuotes, hloop]
    · intro hfail
      simp [addManyQuotes, hloop] at hfail
  · push_neg at hall
    obtain ⟨x, hx, hbad⟩ := hall
    have hbad2 : langCheck x.language = false := by
      simpa only [Bool.not_eq_true] using hbad
    have hloop := insertLoop_err quotes rows ⟨x, hx, hbad2⟩
    refine ⟨?_, ?_, ?_⟩
    · simp only [addManyQuotes, hloop]
      constructor
      · intro h; cases h
      · intro h
        exact absurd (langCheck_iff.mpr (h x hx)) hbad
    · intro hsucc
      simp [addManyQuotes, hloop] at hsucc
    · intro _
      simp [addManyQuotes, hloop]

/-- C1 witness: a valid batch is appended; a batch with a bad language
code is rolled back. -/
theorem addManyQuotes_atomic_witness :
    (addManyQuotes [] [⟨"Q1", "A1", "en"⟩]).2 = [⟨"Q1", "A1", "en"⟩]
    ∧ (addManyQuotes [] [⟨"Q1", "A1", "en"⟩, ⟨"Q2", "A2", "de"⟩]).2 = [] :=
  ⟨((addManyQuotes_atomic [] [⟨"Q1", "A1", "en"⟩]).2.1 (by decide)).1,
   ((addManyQuotes_atomic [] [⟨"Q1", "A1", "en"⟩, ⟨"Q2", "A2", "de"⟩]).2.2
     (by decide)).1⟩

/-- C2: for a language path segment outside `{fr, en}`, every
language-scoped endpoint responds 400 with the unsupported-language body
and leaves the table unchanged (no storage operation runs). -/
theorem invalid_language_short_circuits (rows : Table) (language : String)
    (r : Nat) (quote author fault : Option String)
    (h1 : language ≠ "fr") (h2 : language ≠ "en") :
    getLangQuotesHandler rows language = ((400, unsupportedLanguageBody), rows)
    ∧ getRandomHandler rows language r = ((400, unsupportedLanguageBody), rows)
    ∧ postQuoteHandler rows language quote author fault
        = ((400, unsupportedLanguageBody), rows) := by
  have hv : validateLanguage language = false := by
    rw [Bool.eq_false_iff]
    intro h
    rcases validateLanguage_iff.mp h with h | h
    · exact h1 h
    · exact h2 h
  refine ⟨?_, ?_, ?_⟩
  · simp [getLangQuotesHandler, hv]
  · simp [getRandomHandler, hv]
  · simp [postQuoteHandler, hv]

/-- C2 witness: the language `de` is rejected by all three endpoints. -/
theorem invalid_language_short_circuits_witness :
    getLangQuotesHandler [] "de" = ((400, unsupportedLanguageBody), [])
    ∧ getRandomHandler [] "de" 0 = ((400, unsupportedLanguageBody), [])
    ∧ postQuoteHandler [] "de" (some "q") (some "a") none
        = ((400, unsupportedLanguageBody), []) :=
  invalid_language_short_circuits [] "de" 0 (some "q") (some "a") none
    (by decide) (by decide)

lemma validateQuotesRun_ok_true {qs : List BulkElem}
    (h : validateQuotesRun qs = .ok true) :
    ∀ e ∈ qs, ∃ q, e = .obj q ∧ elemCheck q = true := by
  induction qs with
  | nil => intro e he; cases he
  | cons e0 rest ih =>
    intro e he
    cases e0 with
    | null => simp [validateQuotesRun] at h
    | prim => simp [validateQuotesRun] at h
    | obj q =>
      by_cases hc : elemCheck q = true
      · rw [validateQuotesRun, if_pos hc] at h
        rcases List.mem_cons.mp he with rfl | he2
        · exact ⟨q, rfl, hc⟩
        · exact ih h e he2
      · rw [validateQuotesRun, if_neg hc] at h
        simp at h

lemma validateQuotes_ne_ok_true {body : Option (List BulkElem)}
    (h : body = none ∨ ∃ e ∈ body.getD [], lacksField e) :
    validateQuotes body ≠ Except.ok true := by
  rcases h with rfl | ⟨e, he, hbad⟩
  · intro hv; cases hv
  · cases body with
    | none => intro hv; cases hv
    | some qs =>
      intro hv
      obtain ⟨q, rfl, hc⟩ :=
        validateQuotesRun_ok_true hv e (by simpa using he)
      simp only [elemCheck, Bool.and_eq_true, Bool.or_eq_true,
        beq_iff_eq] at hc
      rcases hbad with hb | hb | ⟨hb1, hb2⟩
      · rw [hc.1.1.1] at hb; cases hb
      · rw [hc.1.1.2] at hb; cases hb
      · rcases hc.2 with h2 | h2
        · exact hb1 h2
        · exact hb2 h2

/-- C4 counterexample: the payload `[null]` — a one-element array whose
element lacks every required field — is not answered with 400: reading
`.quote` off `null` throws, the global error handler answers, and the
response status is 500. -/
theorem bulk_invalid_rejected_counterexample :
    (postQuotesHandler "production" [] (some [BulkElem.null])).1
      = (500, .errDetails "Erreur interne du serveur / Internal server error"
          none)
    ∧ (postQuotesHandler "production" [] (some [BulkElem.null])).1.1 ≠ 400 := by
  decide

/-- C4 amended: an invalid bulk-import payload (not an array, or with an
element lacking a non-empty quote, a non-empty author, or a language in
`{fr, en}`) never passes validation, so no storage call is made and the
table is unchanged; the response is 400 when validation returns false, but
when the left-to-right scan reaches a `null` element first the thrown
`TypeError` is surfaced by the global error handler as a 500. -/
theorem bulk_invalid_rejected (mode : String) (rows : Table)
    (body : Option (List BulkElem))
    (h : body = none ∨ ∃ e ∈ body.getD [], lacksField e) :
    validateQuotes body ≠ Except.ok true
    ∧ (postQuotesHandler mode rows body).2 = rows
    ∧ (validateQuotes body = .ok false →
        postQuotesHandler mode rows body
          = ((400, .err "Format invalide / Invalid format"), rows))
    ∧ (∀ er, validateQuotes body = .error er →
        postQuotesHandler mode rows body = (errorHandler mode er, rows)) := by
  have hne := validateQuotes_ne_ok_true h
  refine ⟨hne, ?_, ?_, ?_⟩
  · cases hv : validateQuotes body with
    | error e => simp [postQuotesHandler, hv]
    | ok b =>
      cases b with
      | false => simp [postQuotesHandler, hv]
      | true => exact absurd hv hne
  · intro hv
    simp [postQuotesHandler, hv]
  · intro er hv
    simp [postQuotesHandler, hv]

/-- C4 witness: the spec's own example, a one-element batch whose language
is `de`, is rejected with 400 and no row is inserted. -/
theorem bulk_invalid_rejected_witness :
    postQuotesHandler "production" []
      (some [BulkElem.obj ⟨some "Q1", some "A1", some "de"⟩])
      = ((400, .err "Format invalide / Invalid format"), []) :=
  (bulk_invalid_rejected "production" []
    (some [BulkElem.obj ⟨some "Q1", some "A1", some "de"⟩])
    (Or.inr ⟨BulkElem.obj ⟨some "Q1", some "A1", some "de"⟩,
      List.mem_singleton_self _,
      Or.inr (Or.inr ⟨by decide, by decide⟩)⟩)).2.2.1 rfl

/-- C10: bulk-importing the empty array passes validation vacuously, runs
an empty transaction, and responds 200 reporting a count of 0 with the
table unchanged. -/
theorem bulk_empty_import (mode : String) (rows : Table) :
    postQuotesHandler mode rows (some [])
      = ((200, .bulk true "0 citations importées / quotes imported" none),
         rows) := by
  simp only [postQuotesHandler, validateQuotes, validateQuotesRun,
    List.map_nil, Option.getD_some, addManyQuotes, insertLoop]
  rfl

/-- C6: the full listing is a permutation of the table sorted ascending by
`(language, author)` lexicographically, and the by-language listing is a
permutation of the matching rows sorted ascending by `author`. -/
theorem listings_sorted (rows : Table) (language : String) :
    (getAllQuotes rows).Perm rows
    ∧ List.Sorted rowLe (getAllQuotes rows)
    ∧ (getQuotesByLanguage rows language).Perm (matchingRows rows language)
    ∧ List.Sorted authorLe (getQuotesByLanguage rows language) :=
  ⟨List.perm_insertionSort rowLe rows,
   List.sorted_insertionSort rowLe rows,
   List.perm_insertionSort authorLe _,
   List.sorted_insertionSort authorLe _⟩

/-- C7: a valid single insert responds 201 echoing the record, and the
submitted record is then a member of the language-filtered listing. -/
theorem insert_then_list_roundtrip (rows : Table) (q a language : String)
    (hlang : language = "fr" ∨ language = "en") (hq : q ≠ "") (ha : a ≠ "") :
    (postQuoteHandler rows language (some q) (some a) none).1
      = (201, .created "Citation ajoutée avec succès / Quote added successfully"
          ⟨q, a, language⟩)
    ∧ (⟨q, a, language⟩ : Row) ∈ getQuotesByLanguage
        (postQuoteHandler rows language (some q) (some a) none).2 language := by
  have hv : validateLanguage language = true := validateLanguage_iff.mpr hlang
  have hc : langCheck language = true := langCheck_iff.mpr hlang
  have hstep : postQuoteHandler rows language (some q) (some a) none
      = ((201, .created "Citation ajoutée avec succès / Quote added successfully"
          ⟨q, a, language⟩), rows ++ [⟨q, a, language⟩]) := by
    simp [postQuoteHandler, hv, truthy, hq, ha, addQuote, hc]
  refine ⟨by rw [hstep], ?_⟩
  rw [hstep]
  rw [getQuotesByLanguage, List.mem_insertionSort]
  rw [List.mem_filter]
  exact ⟨List.mem_append_right rows (List.mem_singleton_self _), by simp⟩

/-- C7 witness: the spec's example round trip at `("Stay hungry", "Jobs",
"en")`. -/
theorem insert_then_list_roundtrip_witness :
    (⟨"Stay hungry", "Jobs", "en"⟩ : Row) ∈ getQuotesByLanguage
      (postQuoteHandler [] "en" (some "Stay hungry") (some "Jobs") none).2
      "en" :=
  (insert_then_list_roundtrip [] "Stay hungry" "Jobs" "en" (Or.inr rfl)
    (by decide) (by decide)).2

/-- C8: a listing whose query matches zero rows responds 404 (never an
empty 200), and a listing that finds rows responds 200 wrapping the sorted
rows together with their count. -/
theorem listings_empty_404 (rows : Table) (language : String)
    (h : language = "fr" ∨ language = "en") :
    (rows = [] → getQuotesHandler rows
      = ((404, .notFound "Aucune citation disponible / No quotes available"),
         rows))
    ∧ (rows ≠ [] → getQuotesHandler rows
        = ((200, .listAll (getAllQuotes rows).length (getAllQuotes rows)),
           rows)
        ∧ (getAllQuotes rows).length = rows.length)
    ∧ (matchingRows rows language = [] → getLangQuotesHandler rows language
        = ((404, .notFound ("Aucune citation disponible en " ++ language ++
            " / No quotes available in " ++ language)), rows))
    ∧ (matchingRows rows language ≠ [] → getLangQuotesHandler rows language
        = ((200, .listLang language (getQuotesByLanguage rows language).length
            (getQuotesByLanguage rows language)), rows)
        ∧ (getQuotesByLanguage rows language).length
            = (matchingRows rows language).length) := by
  have hv : validateLanguage language = true := validateLanguage_iff.mpr h
  have hlenAll : (getAllQuotes rows).length = rows.length :=
    (List.perm_insertionSort rowLe rows).length_eq
  have hlenLang : (getQuotesByLanguage rows language).length
      = (matchingRows rows language).length :=
    (List.perm_insertionSort authorLe _).length_eq
  refine ⟨?_, ?_, ?_, ?_⟩
  · intro hrows
    have : (getAllQuotes rows).length = 0 := by
      rw [hlenAll, hrows, List.length_nil]
    simp [getQuotesHandler, this]
  · intro hrows
    have hne : (getAllQuotes rows).length ≠ 0 := by
      rw [hlenAll]
      exact fun h0 => hrows (List.length_eq_zero.mp h0)
    exact ⟨by simp [getQuotesHandler, hne], hlenAll⟩
  · intro hm
    have : (getQuotesByLanguage rows language).length = 0 := by
      rw [hlenLang, hm, List.length_nil]
    simp [getLangQuotesHandler, hv, this]
  · intro hm
    have hne : (getQuotesByLanguage rows language).length ≠ 0 := by
      rw [hlenLang]
      exact fun h0 => hm (List.length_eq_zero.mp h0)
    exact ⟨by simp [getLangQuotesHandler, hv, hne], hlenLang⟩

/-- C8 witness: on the empty table, GET `/quotes` responds 404; after one
English insert, GET `/en/quotes` responds 200 with count 1. -/
theorem listings_empty_404_witness :
    getQuotesHandler []
      = ((404, .notFound "Aucune citation disponible / No quotes available"),
         [])
    ∧ getLangQuotesHandler [⟨"Q1", "A1", "en"⟩] "en"
      = ((200, .listLang "en" 1 [⟨"Q1", "A1", "en"⟩]), [⟨"Q1", "A1", "en"⟩]) :=
  ⟨(listings_empty_404 [] "en" (Or.inr rfl)).1 rfl,
   by
    have := ((listings_empty_404 [⟨"Q1", "A1", "en"⟩] "en"
      (Or.inr rfl)).2.2.2 (by decide)).1
    rw [this]
    rfl⟩

lemma card_filter_getElem_eq_count (l : List Row) (v : Row) :
    ((Finset.range l.length).filter (fun r => l[r]? = some v)).card
      = l.count v := by
  induction l using List.reverseRecOn with
  | nil => simp
  | append_singleton l a ih =>
    rw [List.length_append, List.length_singleton, Finset.range_succ,
      Finset.filter_insert]
    have hget : (l ++ [a])[l.length]? = some a := List.getElem?_concat_length l a
    have hfe : (Finset.range l.length).filter (fun r => (l ++ [a])[r]? = some v)
        = (Finset.range l.length).filter (fun r => l[r]? = some v) := by
      apply Finset.filter_congr
      intro r hr
      rw [List.getElem?_append_left (Finset.mem_range.mp hr)]
    by_cases hav : a = v
    · rw [if_pos (by rw [hget, hav])]
      rw [Finset.card_insert_of_not_mem (fun hmem =>
        Finset.not_mem_range_self (Finset.mem_of_mem_filter _ hmem))]
      rw [hfe, ih, List.count_append, hav]
      simp
    · rw [if_neg (by rw [hget]; simp [hav])]
      rw [hfe, ih, List.count_append]
      have hva : ¬ v = a := fun h2 => hav h2.symm
      simp [List.count_singleton', hva]

/-- C5: for a validated language, random retrieval selects uniformly among
the matching rows — over the finite randomness space of one pass, each row
value is hit exactly as often as it occurs among the matches — returns
`none` exactly when no row matches (surfaced as 404 by the endpoint), and
otherwise the endpoint responds 200 with some matching row. -/
theorem getRandomQuote_uniform (rows : Table) (language : String)
    (h : language = "fr" ∨ language = "en") :
    (∀ v : Row,
      ((Finset.range (matchingRows rows language).length).filter
        (fun r => getRandomQuote rows language r = some v)).card
        = (matchingRows rows language).count v)
    ∧ (matchingRows rows language = [] →
        ∀ r, getRandomQuote rows language r = none ∧
          (getRandomHandler rows language r).1.1 = 404)
    ∧ (matchingRows rows language ≠ [] →
        ∀ r, ∃ q ∈ matchingRows rows language,
          (getRandomHandler rows language r).1 = (200, .single q)) := by
  have hv : validateLanguage language = true := validateLanguage_iff.mpr h
  refine ⟨?_, ?_, ?_⟩
  · intro v
    have hcong : (Finset.range (matchingRows rows language).length).filter
          (fun r => getRandomQuote rows language r = some v)
        = (Finset.range (matchingRows rows language).length).filter
          (fun r => (matchingRows rows language)[r]? = some v) := by
      apply Finset.filter_congr
      intro r hr
      simp only [getRandomQuote]
      rw [Nat.mod_eq_of_lt (Finset.mem_range.mp hr)]
    rw [hcong, card_filter_getElem_eq_count]
  · intro hm r
    constructor
    · simp [getRandomQuote, hm]
    · simp [getRandomHandler, hv, getRandomQuote, hm]
  · intro hm r
    have hlen : 0 < (matchingRows rows language).length :=
      List.length_pos.mpr hm
    have hlt : r % (matchingRows rows language).length
        < (matchingRows rows language).length := Nat.mod_lt _ hlen
    refine ⟨(matchingRows rows language)[r % (matchingRows rows language).length],
      List.getElem_mem hlt, ?_⟩
    simp [getRandomHandler, hv, getRandomQuote, List.getElem?_eq_getElem hlt]

/-- C5 witness: with two English rows, each row value is selected by
exactly one of the two randomness draws. -/
theorem getRandomQuote_uniform_witness :
    ((Finset.range (matchingRows [⟨"Q1", "A1", "en"⟩, ⟨"Q2", "A2", "en"⟩]
        "en").length).filter
      (fun r => getRandomQuote [⟨"Q1", "A1", "en"⟩, ⟨"Q2", "A2", "en"⟩]
        "en" r = some ⟨"Q1", "A1", "en"⟩)).card
      = (matchingRows [⟨"Q1", "A1", "en"⟩, ⟨"Q2", "A2", "en"⟩] "en").count
          ⟨"Q1", "A1", "en"⟩ :=
  (getRandomQuote_uniform [⟨"Q1", "A1", "en"⟩, ⟨"Q2", "A2", "en"⟩] "en"
    (Or.inr rfl)).1 ⟨"Q1", "A1", "en"⟩

lemma getQuotesHandler_state (rows : Table) :
    (getQuotesHandler rows).2 = rows := by
  simp only [getQuotesHandler]
  split <;> rfl

lemma getLangQuotesHandler_state (rows : Table) (language : String) :
    (getLangQuotesHandler rows language).2 = rows := by
  simp only [getLangQuotesHandler]
  split
  · rfl
  · split <;> rfl

lemma getRandomHandler_state (rows : Table) (language : String) (r : Nat) :
    (getRandomHandler rows language r).2 = rows := by
  simp only [getRandomHandler]
  split
  · rfl
  · split <;> rfl

lemma elemCheck_rowOk {q : QuoteElem} (hc : elemCheck q = true) :
    rowOk (elemToRow q) := by
  simp only [elemCheck, Bool.and_eq_true, Bool.or_eq_true, beq_iff_eq] at hc
  refine ⟨?_, truthy_getD_ne hc.1.1.1, truthy_getD_ne hc.1.1.2⟩
  rcases hc.2 with h | h <;> simp [elemToRow, h]

lemma postQuotesHandler_cases (mode : String) (rows : Table)
    (body : Option (List BulkElem)) :
    (postQuotesHandler mode rows body).2 = rows
    ∨ ∃ qs, body = some qs ∧ validateQuotesRun qs = .ok true ∧
        (postQuotesHandler mode rows body).2
          = rows ++ qs.map bulkElemToRow := by
  cases hv : validateQuotes body with
  | error e => exact Or.inl (by simp [postQuotesHandler, hv])
  | ok b =>
    cases b with
    | false => exact Or.inl (by simp [postQuotesHandler, hv])
    | true =>
      cases body with
      | none => cases hv
      | some qs =>
        right
        have hrun : validateQuotesRun qs = Except.ok true := hv
        refine ⟨qs, rfl, hrun, ?_⟩
        have hall : ∀ x ∈ qs.map bulkElemToRow,
            langCheck x.language = true := by
          intro x hx
          obtain ⟨e, he, rfl⟩ := List.mem_map.mp hx
          obtain ⟨q, rfl, hc⟩ := validateQuotesRun_ok_true hrun e he
          exact langCheck_iff.mpr (elemCheck_rowOk hc).1
        have hloop := insertLoop_ok (qs.map bulkElemToRow) rows hall
        simp [postQuotesHandler, validateQuotes, hrun, addManyQuotes, hloop]

lemma step_preserves_rowOk (mode : String) (req : Request) (rows : Table)
    (h : ∀ q ∈ rows, rowOk q) : ∀ q ∈ (step mode rows req).2, rowOk q := by
  cases req with
  | getQuotes =>
    intro q hq
    rw [step, getQuotesHandler_state] at hq
    exact h q hq
  | getLangQuotes language =>
    intro q hq
    rw [step, getLangQuotesHandler_state] at hq
    exact h q hq
  | getRandom language r =>
    intro q hq
    rw [step, getRandomHandler_state] at hq
    exact h q hq
  | postQuote language quote author fault =>
    intro q hq
    simp only [step, postQuoteHandler] at hq
    by_cases hv : validateLanguage language = true
    · rw [if_neg (by simp [hv])] at hq
      by_cases hf : (truthy quote && truthy author) = true
      · rw [if_neg (by simp [hf])] at hq
        have hf2 : truthy quote = true ∧ truthy author = true := by
          simpa using hf
        rcases hf2 with ⟨hfq, hfa⟩
        cases fault with
        | some e => exact h q (by simpa [addQuote] using hq)
        | none =>
          have hc : langCheck language = true := by
            rcases validateLanguage_iff.mp hv with h2 | h2 <;>
              simp [langCheck, h2]
          simp only [addQuote, hc, if_true] at hq
          rcases List.mem_append.mp hq with hq2 | hq2
          · exact h q hq2
          · rw [List.mem_singleton.mp hq2]
            exact ⟨validateLanguage_iff.mp hv,
              truthy_getD_ne hfq, truthy_getD_ne hfa⟩
      · rw [if_pos (by simp [hf])] at hq
        exact h q hq
    · rw [if_pos (by simp [Bool.eq_false_iff.mpr hv])] at hq
      exact h q hq
  | postQuotes body =>
    intro q hq
    simp only [step] at hq
    rcases postQuotesHandler_cases mode rows body with hs | ⟨qs, rfl, hrun, hs⟩
    · rw [hs] at hq
      exact h q hq
    · rw [hs] at hq
      rcases List.mem_append.mp hq with hq2 | hq2
      · exact h q hq2
      · obtain ⟨e, he, rfl⟩ := List.mem_map.mp hq2
        obtain ⟨qe, rfl, hc⟩ := validateQuotesRun_ok_true hrun e he
        exact elemCheck_rowOk hc

lemma exec_preserves_rowOk (mode : String) (reqs : List Request) :
    ∀ rows, (∀ q ∈ rows, rowOk q) → ∀ q ∈ exec mode reqs rows, rowOk q := by
  induction reqs with
  | nil =>
    intro rows h
    simpa [exec] using h
  | cons req rest ih =>
    intro rows h
    simp only [exec]
    exact ih _ (step_preserves_rowOk mode req rows h)

/-- C3: every row in the table after any sequence of API requests starting
from the empty table, in any process mode, has language `fr` or `en` and
non-empty quote and author. -/
theorem table_invariant (mode : String) (reqs : List Request) :
    ∀ q ∈ exec mode reqs [], rowOk q :=
  exec_preserves_rowOk mode reqs [] (by simp)

/-- C3 witness: the row created by one valid single insert satisfies the
invariant. -/
theorem table_invariant_witness :
    rowOk ⟨"Stay hungry", "Jobs", "en"⟩ :=
  table_invariant "production" [Request.postQuote "en" (some "Stay hungry")
    (some "Jobs") none] ⟨"Stay hungry", "Jobs", "en"⟩ (by decide)

/-- C9 counterexample: a storage error at POST `/:language/quote` is
surfaced as a 500 whose body is the underlying error message, not the
generic message — and that body varies with the internal error, so the
internals leak; the handler consults no mode flag at this site, so this
happens in production as well. -/
theorem http500_detail_leak_counterexample :
    (postQuoteHandler [] "en" (some "Stay hungry") (some "Jobs")
      (some "SQLITE_IOERR: disk I/O error")).1
      = (500, .err "SQLITE_IOERR: disk I/O error")
    ∧ Body.err "SQLITE_IOERR: disk I/O error"
        ≠ Body.errDetails "Erreur interne du serveur / Internal server error"
            none
    ∧ (postQuoteHandler [] "en" (some "Stay hungry") (some "Jobs")
        (some "SQLITE_IOERR: disk I/O error")).1.2
      ≠ (postQuoteHandler [] "en" (some "Stay hungry") (some "Jobs")
        (some "SQLITE_BUSY: database is locked")).1.2 := by
  decide

/-- C9 amended: the global catch-all error handler responds 500 with only
a generic message outside development mode — its body is independent of
the internal error — and adds a `details` field only in development mode;
but the 500 responses produced at the storage call site of the
single-insert route carry the underlying error message in every mode. -/
theorem error_detail_policy (mode m1 m2 : String) (rows : Table)
    (language : String) (quote author : Option String) (e : String)
    (hmode : mode ≠ "development")
    (hlang : language = "fr" ∨ language = "en")
    (hq : truthy quote = true) (ha : truthy author = true) :
    errorHandler mode m1 = errorHandler mode m2
    ∧ errorHandler mode m1
        = (500, .errDetails "Erreur interne du serveur / Internal server error"
            none)
    ∧ errorHandler "development" m1
        = (500, .errDetails "Erreur interne du serveur / Internal server error"
            (some m1))
    ∧ (postQuoteHandler rows language quote author (some e)).1
        = (500, .err e) := by
  have hm : (mode == "development") = false := by
    simp [hmode]
  have hv : validateLanguage language = true := validateLanguage_iff.mpr hlang
  refine ⟨?_, ?_, ?_, ?_⟩
  · simp [errorHandler, hm]
  · simp [errorHandler, hm]
  · simp [errorHandler]
  · simp [postQuoteHandler, hv, hq, ha, addQuote]

/-- C9 amended witness: in production mode the catch-all handler sends the
generic body with no details, while the single-insert call site surfaces
the raw storage error. -/
theorem error_detail_policy_witness :
    errorHandler "production" "boom"
      = (500, .errDetails "Erreur interne du serveur / Internal server error"
          none)
    ∧ (postQuoteHandler [] "en" (some "q") (some "a") (some "boom")).1
      = (500, .err "boom") :=
  ⟨(error_detail_policy "production" "boom" "boom" [] "en" (some "q")
      (some "a") "boom" (by decide) (Or.inr rfl) (by decide) (by decide)).2.1,
   (error_detail_policy "production" "boom" "boom" [] "en" (some "q")
      (some "a") "boom" (by decide) (Or.inr rfl) (by decide) (by decide)).2.2.2⟩

end QuoteApi
